import Mathlib

/-!
# Verification of the DeepRead document-analysis pipeline

A shallow embedding of `src/index.tsx` (the single source file of the
AI-powered reading assistant): file validation, media-type resolution,
the base-64 transport encoding, the response handling of the extraction
client, the upload/processing/dashboard workflow state machine, the
export action, and the presenter's bar-chart projections.  Theorems
`C1_*` .. `C10_*` settle the frozen claims about the specification.
-/

namespace DeepRead

/-! ## Strings

The source uses JavaScript's `String.prototype.endsWith`; we model it
over the character list of the string. -/

/-- JS `s.endsWith(suffix)`: the characters of `suffix` form a suffix of
the characters of `s`. -/
def strEndsWith (s suffix : String) : Bool :=
  suffix.toList.isSuffixOf s.toList

/-! ## File Validator (src/index.tsx lines 79-90)

`validateAndProcess` classifies the candidate file and either forwards it
(`onFileSelect`) or shows a browser alert. -/

/-- An upload candidate: the file name and the browser-declared media
type (`File.name`, `File.type`; the declared type may be empty). -/
structure JsFile where
  name : String
  type : String
deriving DecidableEq

/-- Line 80: `const validTypes = ['text/markdown', 'text/plain', 'application/pdf']`. -/
def validTypes : List String := ["text/markdown", "text/plain", "application/pdf"]

/-- Line 82: `file.name.endsWith('.md') || file.name.endsWith('.markdown')`. -/
def isMd (file : JsFile) : Bool :=
  strEndsWith file.name ".md" || strEndsWith file.name ".markdown"

/-- Line 83: `file.type === 'application/pdf' || file.name.endsWith('.pdf')`. -/
def isPdf (file : JsFile) : Bool :=
  file.type == "application/pdf" || strEndsWith file.name ".pdf"

/-- Line 85: the acceptance condition of `validateAndProcess`. -/
def fileAccepted (file : JsFile) : Bool :=
  isMd file || isPdf file || validTypes.contains file.type

/-- Line 88: the message of the rejection alert. -/
def rejectionAlertMsg : String := "Please upload a PDF or Markdown file."

/-- The spec's ordered acceptance cascade (§4.1), written from the spec's
words to be compared with `fileAccepted`: markdown extension first, then
PDF media type or `.pdf` extension, then the allow-list, else rejected. -/
def validateSpecCascade (file : JsFile) : Bool :=
  if strEndsWith file.name ".md" || strEndsWith file.name ".markdown" then true
  else if file.type == "application/pdf" || strEndsWith file.name ".pdf" then true
  else if validTypes.contains file.type then true
  else false

/-! ## Media-type resolution (src/index.tsx lines 250-251 and 311-317) -/

/-- Line 251: `file.type || (file.name.endsWith('.md') ? 'text/plain' : 'application/pdf')`.
JS `||` takes the declared type unless it is the empty string. -/
def resolveMime (file : JsFile) : String :=
  if file.type ≠ "" then file.type
  else if strEndsWith file.name ".md" then "text/plain"
  else "application/pdf"

/-- Line 314: `mimeType === 'text/markdown' ? 'text/plain' : mimeType` —
the media-type tag actually placed in the request's `inlineData` part. -/
def transmittedMime (file : JsFile) : String :=
  let m := resolveMime file
  if m = "text/markdown" then "text/plain" else m

/-! ## JSON values and the response schema (src/index.tsx lines 254-309, 332-338)

The extraction client parses the service's response text with
`JSON.parse` and casts the result to `AnalysisData` *without any runtime
field check*.  `Json` models the runtime value produced by `JSON.parse`. -/

/-- A parsed JSON value (the runtime result of `JSON.parse`). -/
inductive Json
  | null
  | bool (b : Bool)
  | num (n : Int)
  | str (s : String)
  | arr (xs : List Json)
  | obj (fields : List (String × Json))

/-- Line 308 of the request schema: the required top-level properties of
the analysis result. -/
def requiredTopLevel : List String :=
  ["metadata", "executiveSummary", "keyConcepts", "chapterBreakdown",
   "topicStats", "fullMarkdownReport"]

/-- A parsed response value is an object carrying every required
top-level field of the `AnalysisData` shape. -/
def hasAllRequired (j : Json) : Bool :=
  match j with
  | Json.obj fields => requiredTopLevel.all (fun k => (fields.lookup k).isSome)
  | _ => false

/-! ## Extraction client response handling (src/index.tsx lines 323-344)

The awaited work before line 332 (file read, network call) is summarised
by a `FetchResult`; `JSON.parse` is a platform builtin, passed in as the
function `parse` (`none` models a parse exception). -/

/-- Outcome of the awaited part of `handleFileSelect` up to line 332:
either the service answered and `result.text` is available, or the file
read / API call threw. An absent `result.text` is modelled by `""`
(both are falsy at line 333). -/
inductive FetchResult
  | text (t : String)
  | thrown (msg : String)

/-- Line 333: the message of the empty-response error. -/
def emptyResponseMsg : String := "No content generated"

/-- Lines 332-335: reject an empty response, then `JSON.parse` the text;
any parsed JSON value is accepted as the `AnalysisData` (the `as` cast
performs no runtime check). `parse` models `JSON.parse`, `none` a parse
exception. -/
def parseOutcome (parse : String → Option Json) (fr : FetchResult) :
    Except String Json :=
  match fr with
  | FetchResult.thrown msg => Except.error msg
  | FetchResult.text t =>
    if t = "" then Except.error emptyResponseMsg
    else
      match parse t with
      | none => Except.error "Unexpected end of JSON input"
      | some j => Except.ok j

/-! ## Workflow state machine (src/index.tsx lines 222-345, 360-392) -/

/-- Line 44: `type ViewState = "upload" | "processing" | "dashboard"`.
`upload` renders the intake surface (the spec's `Idle`), `processing`
the spinner (`Processing`), `dashboard` the result (`Ready`). -/
inductive ViewState
  | upload
  | processing
  | dashboard
deriving DecidableEq

/-- Line 45: the dashboard tabs. -/
inductive DashboardTab
  | overview
  | concepts
  | visuals
  | fullReport
deriving DecidableEq

/-- The React state of `App` (lines 223-226): current view, active tab,
the parsed analysis data, and the last error message. -/
structure AppState where
  view : ViewState
  activeTab : DashboardTab
  data : Option Json
  error : Option String

/-- Lines 223-226: initial state on application start —
`Idle` with no data and no error. -/
def initialState : AppState :=
  AppState.mk ViewState.upload DashboardTab.overview none none

/-- Observable side effects other than state updates. -/
inductive Effect
  | alert (msg : String)
  | download
  | print

/-- Lines 228-345, `handleFileSelect`: the successive `App` states it
produces.  First `setView("processing")` and `setError(null)` (lines
229-230), then — once the awaited work resolves — either
`setData(json); setView("dashboard")` (lines 337-338) or
`setError(msg); setView("upload")` (lines 342-343). -/
def handleFileSelect (parse : String → Option Json) (s : AppState)
    (fr : FetchResult) : List AppState :=
  let s1 := AppState.mk ViewState.processing s.activeTab s.data none
  match parseOutcome parse fr with
  | Except.ok j =>
      [s1, AppState.mk ViewState.dashboard s1.activeTab (some j) s1.error]
  | Except.error msg =>
      [s1, AppState.mk ViewState.upload s1.activeTab s1.data (some msg)]

/-- Lines 79-90 composed with `handleFileSelect`: a submission from the
intake surface.  An accepted file is forwarded (`onFileSelect`); a
rejected file leaves the state untouched and raises the alert of
line 88. Returns the list of successive states and the effects. -/
def submit (parse : String → Option Json) (s : AppState) (file : JsFile)
    (fr : FetchResult) : List AppState × List Effect :=
  if fileAccepted file then (handleFileSelect parse s fr, [])
  else ([], [Effect.alert rejectionAlertMsg])

/-- The user interactions wired up in the rendered UI. -/
inductive UiEvent
  | submitFile (file : JsFile) (fr : FetchResult)
  | headerHome
  | exportClick
  | printClick
  | tabClick (t : DashboardTab)

/-- Which events the rendered UI exposes in a given state: the intake
surface (and with it `validateAndProcess`/`handleFileSelect`) only in
the `upload` view (lines 360-372); the header buttons and tabs only in
the dashboard view with data present (lines 382-453); nothing while
`processing` (lines 374-380 render only the spinner). -/
def eventAvailable (s : AppState) : UiEvent → Bool
  | UiEvent.submitFile _ _ => s.view == ViewState.upload
  | _ => s.view == ViewState.dashboard && s.data.isSome

/-- One user interaction: the successive states and effects it causes.
`headerHome` is the logo click `setView('upload')` (line 389),
`exportClick` is `handleDownload` (line 397; its artifact is modelled
separately by `handleDownload` below), `printClick` is `window.print()`
(line 394), `tabClick` is `setActiveTab` (line 441). -/
def step (parse : String → Option Json) (s : AppState) :
    UiEvent → List AppState × List Effect
  | UiEvent.submitFile file fr => submit parse s file fr
  | UiEvent.headerHome =>
      ([AppState.mk ViewState.upload s.activeTab s.data s.error], [])
  | UiEvent.exportClick => ([], [Effect.download])
  | UiEvent.printClick => ([], [Effect.print])
  | UiEvent.tabClick t =>
      ([AppState.mk s.view t s.data s.error], [])

/-- The state in force after a list of successive updates. -/
def finalState (s : AppState) (trace : List AppState) : AppState :=
  trace.getLastD s

/-! ## Binary transport encoding (src/index.tsx lines 236-248)

`readFileBase64` reads the file with `FileReader.readAsDataURL`, which
yields `data:<mime>;base64,<payload>`, and keeps `split(',')[1]`.  The
base-64 encoding itself is performed by the platform, not by repository
code, so it is modelled from the spec (§4.2: "a standard
base-64-equivalent text alphabet"; decode must be byte-exact). -/

/-- Modelled from the spec: the standard base-64 alphabet used by the
platform encoder behind `FileReader.readAsDataURL` (the encoder is not
repository code). -/
def b64Alphabet : List Char :=
  "ABCDEFGHIJKLMNOPQRSTUVWXYZabcdefghijklmnopqrstuvwxyz0123456789+/".toList

/-- Modelled from the spec: the alphabet character of a six-bit value. -/
def encodeSextet (n : Nat) : Char :=
  b64Alphabet.getD n 'A'

/-- Modelled from the spec: the six-bit value of an alphabet character. -/
def decodeSextet (c : Char) : Nat :=
  b64Alphabet.indexOf c

/-- Modelled from the spec: group the bytes in threes and split each
group into six-bit values (a final group of one or two bytes yields two
or three sextets). -/
def bytesToSextets : List Nat → List Nat
  | [] => []
  | [a] => [a / 4, a % 4 * 16]
  | [a, b] => [a / 4, a % 4 * 16 + b / 16, b % 16 * 4]
  | a :: b :: c :: rest =>
      (a / 4) :: (a % 4 * 16 + b / 16) :: (b % 16 * 4 + c / 64) :: (c % 64) ::
        bytesToSextets rest

/-- Modelled from the spec: the `=` padding appended for a final group
of one or two bytes. -/
def b64Padding (rem : Nat) : String :=
  if rem = 1 then "==" else if rem = 2 then "=" else ""

/-- Modelled from the spec: the base-64 text encoding of a byte list. -/
def encodeB64 (bytes : List Nat) : String :=
  String.mk ((bytesToSextets bytes).map encodeSextet) ++ b64Padding (bytes.length % 3)

/-- Modelled from the spec: reassemble bytes from six-bit values (the
inverse grouping of `bytesToSextets`). -/
def sextetsToBytes : List Nat → List Nat
  | s1 :: s2 :: s3 :: s4 :: rest =>
      (s1 * 4 + s2 / 16) :: (s2 % 16 * 16 + s3 / 4) :: (s3 % 4 * 64 + s4) ::
        sextetsToBytes rest
  | [s1, s2] => [s1 * 4 + s2 / 16]
  | [s1, s2, s3] => [s1 * 4 + s2 / 16, s2 % 16 * 16 + s3 / 4]
  | _ => []

/-- Modelled from the spec: base-64 decoding — drop the `=` padding and
reassemble the bytes. -/
def decodeB64 (s : String) : List Nat :=
  sextetsToBytes ((s.toList.filter (fun c => c != '=')).map decodeSextet)

/-- Split a character list at every `,` (JS `String.prototype.split(',')`). -/
def splitCommas : List Char → List (List Char)
  | [] => [[]]
  | c :: rest =>
    if c = ',' then [] :: splitCommas rest
    else
      match splitCommas rest with
      | [] => [[c]]
      | g :: gs => (c :: g) :: gs

/-- The data URL produced by `FileReader.readAsDataURL` for a file with
the given media type and bytes (the comment at line 241 shows its
shape, e.g. `data:application/pdf;base64,`). -/
def dataUrl (mime : String) (bytes : List Nat) : String :=
  "data:" ++ mime ++ ";base64," ++ encodeB64 bytes

/-- Lines 236-248, `readFileBase64`: read the file as a data URL and
keep `result.split(',')[1]` (line 242). -/
def readFileBase64 (mime : String) (bytes : List Nat) : String :=
  String.mk ((splitCommas (dataUrl mime bytes).toList).getD 1 [])

/-! ## The typed analysis result (src/index.tsx lines 19-42)

The `AnalysisData` interface, used by the presenter components. -/

/-- Lines 20-25: document metadata. -/
structure DocMetadata where
  title : String
  author : String
  genre : String
  readingTime : String

/-- Lines 27-31: a key concept. -/
structure KeyConcept where
  term : String
  definition : String
  importance : Int

/-- Lines 32-36: a chapter-breakdown entry. -/
structure ChapterEntry where
  title : String
  summary : String
  insight : String

/-- Lines 37-40: a topic statistic. -/
structure TopicStat where
  topic : String
  relevance : Int

/-- Lines 19-42: the typed analysis result. -/
structure AnalysisData where
  metadata : DocMetadata
  executiveSummary : String
  keyConcepts : List KeyConcept
  chapterBreakdown : List ChapterEntry
  topicStats : List TopicStat
  fullMarkdownReport : String

/-! ## Export (src/index.tsx lines 347-358)

`handleDownload` offers `data.fullMarkdownReport` as a file named
`` `${data.metadata.title.replace(/\s+/g, '_')}_Notes.md` ``. -/

/-- The character class of the JS regex `\s` (no `u` flag): space, tab,
line terminators, and the Unicode white-space code points. -/
def jsWhitespace (c : Char) : Bool :=
  c == ' ' || c == '\t' || c == '\n' || c == '\r' ||
  c == '\x0b' || c == '\x0c' || c == ' ' || c == ' ' ||
  (0x2000 ≤ c.toNat && c.toNat ≤ 0x200A) ||
  c == ' ' || c == ' ' || c == ' ' || c == ' ' ||
  c == '　' || c == '﻿'

/-- Whether the list is empty or starts with a non-whitespace character
(the boundary condition ending a maximal whitespace run). -/
def headNotWs (l : List Char) : Bool :=
  match l with
  | [] => true
  | c :: _ => !jsWhitespace c

/-- Line 353, `title.replace(/\s+/g, '_')`: each maximal run of
whitespace becomes a single underscore (`+` is greedy, `g` global).
The single `_` of a run is emitted at the run's final character, i.e.
when the remainder does not continue the run. -/
def replaceWsRuns : List Char → List Char
  | [] => []
  | c :: rest =>
    if jsWhitespace c then
      if headNotWs rest then '_' :: replaceWsRuns rest else replaceWsRuns rest
    else c :: replaceWsRuns rest

/-- The title slug of line 353. -/
def collapseTitle (title : String) : String :=
  String.mk (replaceWsRuns title.toList)

/-- Lines 347-358, `handleDownload`: the download artifact —
filename and content of the exported blob. -/
def handleDownload (data : AnalysisData) : String × String :=
  (collapseTitle data.metadata.title ++ "_Notes.md", data.fullMarkdownReport)

/-! ## Presenter bar charts (src/index.tsx lines 164-184, 483-513) -/

/-- One rendered bar row: its label, the numeric value displayed next to
the bar, and the percentage used as the CSS width of the filled bar. -/
structure BarRow where
  label : String
  display : Int
  widthPct : Rat
deriving DecidableEq

/-- Line 165: `Math.max(...data.map(d => d.value), 1)` — the maximum of
the series values and `1`. -/
def jsMaxOr1 (values : List Int) : Int :=
  values.foldl max 1

/-- Lines 164-184, `BarChart`: each datum is rendered with its value
shown verbatim and a bar of width `(value / max) * 100` percent. -/
def barChart (data : List (String × Int)) : List BarRow :=
  let m := jsMaxOr1 (data.map (fun d => d.2))
  data.map (fun d => BarRow.mk d.1 d.2 (((d.2 : Rat) / (m : Rat)) * 100))

/-- Line 490: the Top Themes panel feeds `topicStats` into `BarChart`
as `{ label: t.topic, value: t.relevance }`. -/
def topThemesRows (stats : List TopicStat) : List BarRow :=
  barChart (stats.map (fun t => (t.topic, t.relevance)))

/-- Lines 498-511: the Concept Impact Distribution panel renders
`keyConcepts.slice(0, 5)`, each with the importance shown verbatim and a
bar of width `` `${c.importance}%` `` — an absolute percentage. -/
def conceptImpactRows (concepts : List KeyConcept) : List BarRow :=
  (concepts.take 5).map (fun c => BarRow.mk c.term c.importance (c.importance : Rat))

/-- Lines 187-199: a rendered concept card — term, definition, the
importance badge, and the high-impact classification `importance > 80`
(line 192). -/
structure ConceptCard where
  term : String
  definition : String
  impact : Int
  highImpact : Bool
deriving DecidableEq

/-- Line 187-199, `ConceptCard`. -/
def conceptCard (c : KeyConcept) : ConceptCard :=
  ConceptCard.mk c.term c.definition c.importance (decide (c.importance > 80))

/-- Lines 472-481: the concepts view renders every key concept, in
stored order. -/
def conceptCards (concepts : List KeyConcept) : List ConceptCard :=
  concepts.map conceptCard

/-! ## Concrete instances used in closed statements -/

/-- A stand-in for `JSON.parse` for closed statements in which every
parse attempt fails (no response text is ever parsed on the paths
exercised). -/
def parseNone : String → Option Json := fun _ => none

/-- A stand-in for `JSON.parse` agreeing with it on the response text
`"\x7b\x7d"`: `JSON.parse("\x7b\x7d")` yields the object with no fields. -/
def parseEmptyObj : String → Option Json :=
  fun t => if t = "\x7b\x7d" then some (Json.obj []) else none

/-- A concrete analysis result with the spec's scenario title. -/
def exampleAnalysis : AnalysisData :=
  AnalysisData.mk (DocMetadata.mk "My Book: Part One" "A. Author" "Essay" "3 h")
    "summary" [KeyConcept.mk "Entropy" "disorder" 92] [] [TopicStat.mk "Order" 70]
    "# Report"

end DeepRead

namespace DeepRead

/-! ## Claim theorems -/

/-- C3: every file whose name ends in `.md` or `.markdown` is accepted
whatever the declared media type (including the empty string), and the
acceptance condition coincides pointwise with the spec's ordered
cascade (markdown extension, then PDF type or `.pdf` extension, then
the allow-list, else rejected). -/
theorem C3_md_accepted_and_cascade (file : JsFile) :
    (isMd file = true → fileAccepted file = true) ∧
    fileAccepted file = validateSpecCascade file := by
  constructor
  · intro h
    simp [fileAccepted, h]
  · unfold fileAccepted validateSpecCascade isMd isPdf
    cases strEndsWith file.name ".md" <;>
      cases strEndsWith file.name ".markdown" <;>
      cases file.type == "application/pdf" <;>
      cases strEndsWith file.name ".pdf" <;>
      cases validTypes.contains file.type <;> rfl

/-- Witness for C3 at the file `notes.md` with empty declared type. -/
theorem C3_witness :
    isMd (JsFile.mk "notes.md" "") = true ∧
    fileAccepted (JsFile.mk "notes.md" "") = true ∧
    fileAccepted (JsFile.mk "notes.md" "") = validateSpecCascade (JsFile.mk "notes.md" "") :=
  ⟨by decide, (C3_md_accepted_and_cascade (JsFile.mk "notes.md" "")).1 (by decide),
    (C3_md_accepted_and_cascade (JsFile.mk "notes.md" "")).2⟩

/-- C4 counterexample: the file `notes.md` declared as `text/html` is
accepted (markdown extension wins), yet the media type transmitted to
the extraction service is `text/html` — outside the closed set
`{application/pdf, text/plain}` the claim asserts. -/
theorem C4_counterexample :
    fileAccepted (JsFile.mk "notes.md" "text/html") = true ∧
    transmittedMime (JsFile.mk "notes.md" "text/html") = "text/html" ∧
    "text/html" ≠ "application/pdf" ∧ "text/html" ≠ "text/plain" := by
  refine ⟨by decide, by decide, by decide, by decide⟩

/-- C4 amended: a raw `text/markdown` tag is never transmitted (it is
normalized to `text/plain`); the transmitted type lies in the closed
set `{application/pdf, text/plain}` whenever the declared type is empty
or belongs to the allow-list; but a file with a nonempty declared type
outside the allow-list — acceptable via its extension — transmits that
declared type verbatim. -/
theorem C4_amended (file : JsFile) :
    transmittedMime file ≠ "text/markdown" ∧
    (file.type = "" ∨ file.type ∈ validTypes →
      transmittedMime file = "application/pdf" ∨ transmittedMime file = "text/plain") ∧
    (file.type ≠ "" → file.type ∉ validTypes → transmittedMime file = file.type) := by
  unfold transmittedMime resolveMime
  by_cases h : file.type = ""
  · simp [h]
    by_cases hmd : strEndsWith file.name ".md" = true <;> simp [hmd]
  · refine ⟨?_, ?_, ?_⟩
    · by_cases hmk : file.type = "text/markdown" <;> simp [h, hmk]
    · intro hmem
      rcases hmem with hmem | hmem
      · exact absurd hmem h
      · simp [validTypes] at hmem
        rcases hmem with hmem | hmem | hmem <;> simp [h, hmem]
    · intro _ hnot
      have hmk : file.type ≠ "text/markdown" := by
        intro heq
        exact hnot (by simp [validTypes, heq])
      simp [h, hmk]

/-- Witness for C4 at the file `a.md` declared `text/markdown`. -/
theorem C4_witness :
    transmittedMime (JsFile.mk "a.md" "text/markdown") ≠ "text/markdown" ∧
    (transmittedMime (JsFile.mk "a.md" "text/markdown") = "application/pdf" ∨
      transmittedMime (JsFile.mk "a.md" "text/markdown") = "text/plain") :=
  ⟨(C4_amended (JsFile.mk "a.md" "text/markdown")).1,
    (C4_amended (JsFile.mk "a.md" "text/markdown")).2.1 (Or.inr (by decide))⟩

/-- C5 counterexample: submitting `notes.txt` with empty declared media
type from the initial state leaves the state exactly as it was — the
`lastError` field stays `none` — while the rejection message is raised
through the `alert` dialog, a channel different from the `error` field
that extraction failures use, contradicting the claim that the
rejection is reported through the `Idle` `lastError` channel. -/
theorem C5_counterexample :
    submit parseNone initialState (JsFile.mk "notes.txt" "") (FetchResult.text "x") =
      ([], [Effect.alert rejectionAlertMsg]) ∧
    finalState initialState
      (submit parseNone initialState (JsFile.mk "notes.txt" "") (FetchResult.text "x")).1 =
      initialState ∧
    initialState.error = none := by
  have h : fileAccepted (JsFile.mk "notes.txt" "") = false := by decide
  refine ⟨?_, ?_, rfl⟩
  · unfold submit
    rw [h]
    rfl
  · unfold submit
    rw [h]
    rfl

/-- C5 amended: a file rejected by validation never leaves `Idle` — the
submission changes no state at all — and the rejection is reported via
the blocking `alert` dialog of line 88, not via the `Idle` `lastError`
field used by extraction failures. -/
theorem C5_amended (parse : String → Option Json) (s : AppState) (file : JsFile)
    (fr : FetchResult) (h : fileAccepted file = false) :
    submit parse s file fr = ([], [Effect.alert rejectionAlertMsg]) ∧
    finalState s (submit parse s file fr).1 = s := by
  unfold submit
  rw [h]
  exact ⟨rfl, rfl⟩

/-- Witness for C5 at the file `notes.txt` with empty declared type. -/
theorem C5_amended_witness :
    submit parseNone initialState (JsFile.mk "notes.txt" "") (FetchResult.thrown "io") =
      ([], [Effect.alert rejectionAlertMsg]) ∧
    finalState initialState
      (submit parseNone initialState (JsFile.mk "notes.txt" "") (FetchResult.thrown "io")).1 =
      initialState :=
  C5_amended parseNone initialState (JsFile.mk "notes.txt" "") (FetchResult.thrown "io")
    (by decide)

/-- C8: a service response with empty text makes the submission fail
with the "No content generated" message: the workflow passes through
`processing` and ends in the `upload` view (`Idle`) carrying that
message as `lastError`; it never shows the dashboard (`Ready`). -/
theorem C8_empty_response (parse : String → Option Json) (s : AppState) (file : JsFile)
    (h : fileAccepted file = true) :
    submit parse s file (FetchResult.text "") =
      ([AppState.mk ViewState.processing s.activeTab s.data none,
        AppState.mk ViewState.upload s.activeTab s.data (some emptyResponseMsg)], []) ∧
    (finalState s (submit parse s file (FetchResult.text "")).1).view ≠
      ViewState.dashboard := by
  unfold submit
  rw [h]
  simp only [if_pos]
  constructor
  · unfold handleFileSelect parseOutcome
    rfl
  · unfold handleFileSelect parseOutcome finalState
    simp

/-- Witness for C8 at the file `doc.md`. -/
theorem C8_witness :
    submit parseNone initialState (JsFile.mk "doc.md" "") (FetchResult.text "") =
      ([AppState.mk ViewState.processing initialState.activeTab initialState.data none,
        AppState.mk ViewState.upload initialState.activeTab initialState.data
          (some emptyResponseMsg)], []) ∧
    (finalState initialState
      (submit parseNone initialState (JsFile.mk "doc.md" "") (FetchResult.text "")).1).view ≠
      ViewState.dashboard :=
  C8_empty_response parseNone initialState (JsFile.mk "doc.md" "") (by decide)

/-- C10: the Concept Impact panel renders exactly the first five key
concepts in stored order — position `i < 5` shows concept `i`, every
position from the sixth on is absent — while the concepts view renders
one card per key concept, all of them, in stored order. -/
theorem C10_first_five (cs : List KeyConcept) :
    (conceptImpactRows cs).length = min 5 cs.length ∧
    (∀ (i : ℕ) (c : KeyConcept), cs[i]? = some c → i < 5 →
      (conceptImpactRows cs)[i]? =
        some (BarRow.mk c.term c.importance (c.importance : Rat))) ∧
    (∀ i : ℕ, 5 ≤ i → (conceptImpactRows cs)[i]? = none) ∧
    (conceptCards cs).length = cs.length ∧
    (∀ (i : ℕ) (c : KeyConcept), cs[i]? = some c →
      (conceptCards cs)[i]? = some (conceptCard c)) := by
  refine ⟨?_, ?_, ?_, ?_, ?_⟩
  · simp [conceptImpactRows]
  · intro i c hc hi
    simp [conceptImpactRows, List.getElem?_take, hi, hc]
  · intro i hi
    have : (conceptImpactRows cs).length ≤ i := by
      have h5 : (conceptImpactRows cs).length ≤ 5 := by
        simp [conceptImpactRows]
      omega
    exact List.getElem?_eq_none this
  · simp [conceptCards]
  · intro i c hc
    simp [conceptCards, hc]

/-- Witness for C10 on a six-concept list. -/
theorem C10_witness :
    (conceptImpactRows (List.replicate 6 (KeyConcept.mk "t" "d" 10))).length = 5 ∧
    (conceptImpactRows (List.replicate 6 (KeyConcept.mk "t" "d" 10)))[0]? =
      some (BarRow.mk "t" 10 (10 : Rat)) ∧
    (conceptImpactRows (List.replicate 6 (KeyConcept.mk "t" "d" 10)))[5]? = none ∧
    (conceptCards (List.replicate 6 (KeyConcept.mk "t" "d" 10))).length = 6 := by
  refine ⟨?_, ?_, ?_, ?_⟩
  · exact (C10_first_five (List.replicate 6 (KeyConcept.mk "t" "d" 10))).1
  · exact (C10_first_five (List.replicate 6 (KeyConcept.mk "t" "d" 10))).2.1 0
      (KeyConcept.mk "t" "d" 10) rfl (by omega)
  · exact (C10_first_five (List.replicate 6 (KeyConcept.mk "t" "d" 10))).2.2.1 5 (by omega)
  · exact (C10_first_five (List.replicate 6 (KeyConcept.mk "t" "d" 10))).2.2.2.1

/-- C2: (a) submitting a validated file from the `upload` view (`Idle`)
yields the `processing` state first and only afterwards a second state,
which is never `processing` and is either `dashboard` (`Ready`) or
`upload` with an error set (`Idle(lastError)`); (b) no user event is
available while `processing`, so `Processing` never transitions to
itself; (c) from `dashboard` (`Ready`), the explicit reset (header
click) returns to `upload` (`Idle`), and every other available event
leaves the view at `dashboard`. -/
theorem C2_state_machine :
    (∀ (parse : String → Option Json) (s : AppState) (file : JsFile) (fr : FetchResult),
      s.view = ViewState.upload → fileAccepted file = true →
      ∃ s2, (submit parse s file fr).1 =
          [AppState.mk ViewState.processing s.activeTab s.data none, s2] ∧
        s2.view ≠ ViewState.processing ∧
        (s2.view = ViewState.dashboard ∨
          (s2.view = ViewState.upload ∧ s2.error ≠ none))) ∧
    (∀ (s : AppState) (e : UiEvent),
      s.view = ViewState.processing → eventAvailable s e = false) ∧
    (∀ (parse : String → Option Json) (s : AppState) (e : UiEvent),
      s.view = ViewState.dashboard → eventAvailable s e = true →
      (e = UiEvent.headerHome →
        (step parse s e).1 =
          [AppState.mk ViewState.upload s.activeTab s.data s.error]) ∧
      (e ≠ UiEvent.headerHome →
        ∀ t ∈ (step parse s e).1, t.view = ViewState.dashboard)) := by
  refine ⟨?_, ?_, ?_⟩
  · intro parse s file fr _ hacc
    unfold submit
    rw [hacc]
    simp only [if_pos]
    unfold handleFileSelect
    cases parseOutcome parse fr with
    | ok j =>
        exact ⟨AppState.mk ViewState.dashboard s.activeTab (some j) none,
          rfl, by simp, Or.inl rfl⟩
    | error msg =>
        exact ⟨AppState.mk ViewState.upload s.activeTab s.data (some msg),
          rfl, by simp, Or.inr ⟨rfl, by simp⟩⟩
  · intro s e hview
    cases e <;> simp [eventAvailable, hview]
  · intro parse s e hview havail
    constructor
    · intro he
      subst he
      rfl
    · intro hne t ht
      cases e with
      | submitFile file fr =>
          simp [eventAvailable, hview] at havail
      | headerHome => exact absurd rfl hne
      | exportClick => simp [step] at ht
      | printClick => simp [step] at ht
      | tabClick tab =>
          simp [step] at ht
          rw [ht]
          exact hview

/-- Witness for C2: a markdown submission from the initial state, the
unavailability of events while processing, and the dashboard reset. -/
theorem C2_witness :
    (∃ s2, (submit parseNone initialState (JsFile.mk "a.md" "") (FetchResult.text "x")).1 =
        [AppState.mk ViewState.processing initialState.activeTab initialState.data none, s2] ∧
      s2.view ≠ ViewState.processing ∧
      (s2.view = ViewState.dashboard ∨
        (s2.view = ViewState.upload ∧ s2.error ≠ none))) ∧
    eventAvailable (AppState.mk ViewState.processing DashboardTab.overview none none)
      UiEvent.printClick = false ∧
    (step parseNone
        (AppState.mk ViewState.dashboard DashboardTab.overview (some Json.null) none)
        UiEvent.headerHome).1 =
      [AppState.mk ViewState.upload DashboardTab.overview (some Json.null) none] :=
  ⟨C2_state_machine.1 parseNone initialState (JsFile.mk "a.md" "") (FetchResult.text "x")
      rfl (by decide),
    C2_state_machine.2.1 (AppState.mk ViewState.processing DashboardTab.overview none none)
      UiEvent.printClick rfl,
    (C2_state_machine.2.2 parseNone
      (AppState.mk ViewState.dashboard DashboardTab.overview (some Json.null) none)
      UiEvent.headerHome rfl rfl).1 rfl⟩

/-- C1 counterexample: the response text `"\x7b\x7d"` parses as JSON
(`JSON.parse("\x7b\x7d")` is the empty object) and carries none of the six
required fields, yet the submission of a validated file ends in the
dashboard view (`Ready`) holding exactly that object — the client
performs no shape validation after `JSON.parse`. -/
theorem C1_counterexample :
    hasAllRequired (Json.obj []) = false ∧
    parseEmptyObj "\x7b\x7d" = some (Json.obj []) ∧
    (finalState initialState
      (submit parseEmptyObj initialState (JsFile.mk "doc.md" "") (FetchResult.text "\x7b\x7d")).1).view =
      ViewState.dashboard ∧
    (finalState initialState
      (submit parseEmptyObj initialState (JsFile.mk "doc.md" "") (FetchResult.text "\x7b\x7d")).1).data =
      some (Json.obj []) := by
  have h : fileAccepted (JsFile.mk "doc.md" "") = true := by decide
  refine ⟨rfl, rfl, ?_, ?_⟩ <;>
    · unfold submit
      rw [h]
      rfl

/-- C1 amended: the extraction client rejects a response only when its
text is empty or fails `JSON.parse`; any text that parses to a JSON
value — whether or not the required fields are present — reaches the
dashboard (`Ready`) carrying that value verbatim. -/
theorem C1_amended (parse : String → Option Json) (s : AppState) (file : JsFile)
    (t : String) (hacc : fileAccepted file = true) (hne : t ≠ "") :
    (parse t = none →
      submit parse s file (FetchResult.text t) =
        ([AppState.mk ViewState.processing s.activeTab s.data none,
          AppState.mk ViewState.upload s.activeTab s.data
            (some "Unexpected end of JSON input")], [])) ∧
    (∀ j, parse t = some j →
      submit parse s file (FetchResult.text t) =
        ([AppState.mk ViewState.processing s.activeTab s.data none,
          AppState.mk ViewState.dashboard s.activeTab (some j) none], [])) := by
  unfold submit
  rw [hacc]
  simp only [if_pos]
  constructor
  · intro hp
    unfold handleFileSelect parseOutcome
    simp [hne, hp]
  · intro j hp
    unfold handleFileSelect parseOutcome
    simp [hne, hp]

/-- Witness for C1 amended: the unparsable text `nope` fails, while the
parsable but field-free text `{}` reaches the dashboard. -/
theorem C1_amended_witness :
    submit parseEmptyObj initialState (JsFile.mk "doc.md" "") (FetchResult.text "nope") =
      ([AppState.mk ViewState.processing initialState.activeTab initialState.data none,
        AppState.mk ViewState.upload initialState.activeTab initialState.data
          (some "Unexpected end of JSON input")], []) ∧
    submit parseEmptyObj initialState (JsFile.mk "doc.md" "") (FetchResult.text "\x7b\x7d") =
      ([AppState.mk ViewState.processing initialState.activeTab initialState.data none,
        AppState.mk ViewState.dashboard initialState.activeTab (some (Json.obj [])) none], []) :=
  ⟨(C1_amended parseEmptyObj initialState (JsFile.mk "doc.md" "") "nope"
      (by decide) (by decide)).1 (by simp [parseEmptyObj]),
    (C1_amended parseEmptyObj initialState (JsFile.mk "doc.md" "") "\x7b\x7d"
      (by decide) (by decide)).2 (Json.obj []) rfl⟩

/-- Folding `max` from a combined seed splits into a `max` with the
fold from the second seed. -/
theorem foldl_max_absorb (l : List Int) (a : Int) :
    ∀ b, l.foldl max (max a b) = max a (l.foldl max b) := by
  induction l with
  | nil => intro b; rfl
  | cons c l ih =>
      intro b
      show l.foldl max (max (max a b) c) = max a ((c :: l).foldl max b)
      rw [max_assoc, ih (max b c)]
      rfl

/-- C9 counterexample: a concept series whose single element has
importance 50: the stored value is the series maximum, so the claim
demands a bar of proportion 50 / 50 = 1 (width 100 %), but the Concept
Impact panel renders the absolute width `importance` percent — 50 %. -/
theorem C9_counterexample :
    conceptImpactRows [KeyConcept.mk "Entropy" "disorder" 50] =
      [BarRow.mk "Entropy" 50 (50 : Rat)] ∧
    ((50 : Rat) / 100) ≠ ((50 : Rat) / (50 : Rat)) := by
  constructor
  · rfl
  · norm_num

/-- C9 amended: displayed numeric values are the stored values verbatim
in both panels; a Top Themes bar (the `BarChart` component) has width
`relevance / max(seriesMax, 1) * 100` percent, which equals the claim's
`value / seriesMax` proportion whenever the series maximum
`vs.foldl max v` of the nonempty series `v :: vs` is at least 1; a
Concept Impact bar instead has the absolute width `importance` percent,
not relative to the series maximum. -/
theorem C9_amended :
    (∀ (stats : List TopicStat) (i : ℕ) (t : TopicStat), stats[i]? = some t →
      (topThemesRows stats)[i]? =
        some (BarRow.mk t.topic t.relevance
          ((t.relevance : Rat) / (jsMaxOr1 (stats.map TopicStat.relevance) : Rat) * 100))) ∧
    (∀ (v : Int) (vs : List Int), 1 ≤ vs.foldl max v →
      jsMaxOr1 (v :: vs) = vs.foldl max v) ∧
    (∀ (cs : List KeyConcept) (i : ℕ) (c : KeyConcept), (cs.take 5)[i]? = some c →
      (conceptImpactRows cs)[i]? =
        some (BarRow.mk c.term c.importance (c.importance : Rat))) := by
  refine ⟨?_, ?_, ?_⟩
  · intro stats i t ht
    simp [topThemesRows, barChart, List.getElem?_map, ht, Function.comp_def]
  · intro v vs h
    show (v :: vs).foldl max 1 = vs.foldl max v
    show vs.foldl max (max 1 v) = vs.foldl max v
    rw [foldl_max_absorb vs 1 v]
    exact max_eq_right h
  · intro cs i c hc
    unfold conceptImpactRows
    rw [List.getElem?_map, hc]
    rfl

/-- Witness for C9 amended: a two-topic series with maximum 9 and a
concept list rendered with absolute widths. -/
theorem C9_amended_witness :
    (topThemesRows [TopicStat.mk "Order" 3, TopicStat.mk "Chaos" 9])[0]? =
      some (BarRow.mk "Order" 3
        ((3 : Rat) / (jsMaxOr1 [3, 9] : Rat) * 100)) ∧
    jsMaxOr1 [3, 9] = [9].foldl max 3 ∧
    (conceptImpactRows [KeyConcept.mk "Entropy" "disorder" 50])[0]? =
      some (BarRow.mk "Entropy" 50 (50 : Rat)) :=
  ⟨C9_amended.1 [TopicStat.mk "Order" 3, TopicStat.mk "Chaos" 9] 0
      (TopicStat.mk "Order" 3) rfl,
    C9_amended.2.1 3 [9] (by decide),
    C9_amended.2.2 [KeyConcept.mk "Entropy" "disorder" 50] 0
      (KeyConcept.mk "Entropy" "disorder" 50) rfl⟩

/-- C7: the export artifact has the `fullMarkdownReport` as its content,
unmodified, and its filename is the collapsed title followed by
`_Notes.md`, where the collapse leaves every non-whitespace character in
place and turns each maximal whitespace run (a nonempty all-whitespace
block followed by a non-whitespace character or the end) into exactly
one underscore. -/
theorem C7_export (d : AnalysisData) :
    (handleDownload d).2 = d.fullMarkdownReport ∧
    (handleDownload d).1 = collapseTitle d.metadata.title ++ "_Notes.md" ∧
    (∀ (c : Char) (rest : List Char), jsWhitespace c = false →
      replaceWsRuns (c :: rest) = c :: replaceWsRuns rest) ∧
    (∀ run rest : List Char, run ≠ [] → run.all jsWhitespace = true →
      headNotWs rest = true →
      replaceWsRuns (run ++ rest) = '_' :: replaceWsRuns rest) := by
  refine ⟨rfl, rfl, ?_, ?_⟩
  · intro c rest h
    simp [replaceWsRuns, h]
  · intro run rest hne hall hhead
    induction run with
    | nil => exact absurd rfl hne
    | cons c run ih =>
        simp only [List.all_cons, Bool.and_eq_true] at hall
        show replaceWsRuns (c :: (run ++ rest)) = _
        cases run with
        | nil =>
            simp [replaceWsRuns, hall.1, hhead]
        | cons c2 run2 =>
            have h2 : jsWhitespace c2 = true := by
              have h3 := hall.2
              simp only [List.all_cons, Bool.and_eq_true] at h3
              exact h3.1
            have hh : headNotWs ((c2 :: run2) ++ rest) = false := by
              simp [headNotWs, h2]
            simp only [replaceWsRuns, hall.1, hh, Bool.false_eq_true, if_false,
              if_true]
            exact ih (by simp) hall.2

/-- Witness for C7 on the spec's scenario title `My Book: Part One`:
content verbatim and filename `My_Book:_Part_One_Notes.md`. -/
theorem C7_witness :
    (handleDownload exampleAnalysis).2 = "# Report" ∧
    (handleDownload exampleAnalysis).1 = "My_Book:_Part_One_Notes.md" ∧
    replaceWsRuns ('a' :: [' ', 'b']) = 'a' :: replaceWsRuns [' ', 'b'] ∧
    replaceWsRuns ([' ', ' '] ++ ['b']) = '_' :: replaceWsRuns ['b'] := by
  refine ⟨(C7_export exampleAnalysis).1, ?_, ?_, ?_⟩
  · rw [(C7_export exampleAnalysis).2.1]
    decide
  · exact (C7_export exampleAnalysis).2.2.1 'a' [' ', 'b'] (by decide)
  · exact (C7_export exampleAnalysis).2.2.2 [' ', ' '] ['b'] (by decide) (by decide)
      (by decide)

/-- Every six-bit value produced by `bytesToSextets` from bytes below
256 is below 64. -/
theorem bytesToSextets_lt (bytes : List Nat) (hb : ∀ x ∈ bytes, x < 256) :
    ∀ n ∈ bytesToSextets bytes, n < 64 := by
  induction bytes using bytesToSextets.induct with
  | case1 => intro n hn; simp [bytesToSextets] at hn
  | case2 a =>
      intro n hn
      have ha := hb a (by simp)
      simp [bytesToSextets] at hn
      rcases hn with hn | hn <;> omega
  | case3 a b =>
      intro n hn
      have ha := hb a (by simp)
      have hbb := hb b (by simp)
      simp [bytesToSextets] at hn
      rcases hn with hn | hn | hn <;> omega
  | case4 a b c rest ih =>
      intro n hn
      have ha := hb a (by simp)
      have hbb := hb b (by simp)
      have hc := hb c (by simp)
      simp only [bytesToSextets, List.mem_cons] at hn
      rcases hn with hn | hn | hn | hn | hn
      · omega
      · omega
      · omega
      · omega
      · exact ih (fun x hx => hb x (by simp [hx])) n hn

/-- Decoding inverts encoding on every six-bit value. -/
theorem decodeSextet_encodeSextet : ∀ n, n < 64 → decodeSextet (encodeSextet n) = n := by
  decide

/-- The encoder never emits the padding character. -/
theorem encodeSextet_ne_pad (n : Nat) : encodeSextet n ≠ '=' := by
  by_cases h : n < 64
  · exact (by decide : ∀ m, m < 64 → encodeSextet m ≠ '=') n h
  · unfold encodeSextet
    rw [List.getD_eq_default]
    · decide
    · have hlen : b64Alphabet.length = 64 := by decide
      omega

/-- The encoder never emits a comma. -/
theorem encodeSextet_ne_comma (n : Nat) : encodeSextet n ≠ ',' := by
  by_cases h : n < 64
  · exact (by decide : ∀ m, m < 64 → encodeSextet m ≠ ',') n h
  · unfold encodeSextet
    rw [List.getD_eq_default]
    · decide
    · have hlen : b64Alphabet.length = 64 := by decide
      omega

/-- Filtering the padding out of encoded sextet characters and decoding
them recovers the sextets. -/
theorem decode_sextet_chars (sx : List Nat) (h : ∀ n ∈ sx, n < 64) :
    ((sx.map encodeSextet).filter (fun c => c != '=')).map decodeSextet = sx := by
  induction sx with
  | nil => rfl
  | cons n sx ih =>
      have hn := h n (by simp)
      have hne : (encodeSextet n != '=') = true := by
        simp [bne_iff_ne]
        exact encodeSextet_ne_pad n
      simp only [List.map_cons, List.filter_cons, hne, if_true, if_pos,
        List.map_cons]
      rw [decodeSextet_encodeSextet n hn, ih (fun m hm => h m (by simp [hm]))]

/-- Reassembling the bytes from the sextet grouping recovers the bytes. -/
theorem sextetsToBytes_bytesToSextets (bytes : List Nat)
    (hb : ∀ x ∈ bytes, x < 256) :
    sextetsToBytes (bytesToSextets bytes) = bytes := by
  induction bytes using bytesToSextets.induct with
  | case1 => rfl
  | case2 a =>
      have ha := hb a (by simp)
      simp [bytesToSextets, sextetsToBytes]
      omega
  | case3 a b =>
      have ha := hb a (by simp)
      have hbb := hb b (by simp)
      simp [bytesToSextets, sextetsToBytes]
      omega
  | case4 a b c rest ih =>
      have ha := hb a (by simp)
      have hbb := hb b (by simp)
      have hc := hb c (by simp)
      simp only [bytesToSextets, sextetsToBytes]
      rw [ih (fun x hx => hb x (by simp [hx]))]
      have e1 : a / 4 * 4 + (a % 4 * 16 + b / 16) / 16 = a := by omega
      have e2 : (a % 4 * 16 + b / 16) % 16 * 16 + (b % 16 * 4 + c / 64) / 4 = b := by
        omega
      have e3 : (b % 16 * 4 + c / 64) % 4 * 64 + c % 64 = c := by omega
      rw [e1, e2, e3]

/-- The padding characters all get filtered out. -/
theorem padding_filtered (r : Nat) :
    (b64Padding r).toList.filter (fun c => c != '=') = [] := by
  unfold b64Padding
  by_cases h1 : r = 1
  · simp [h1]
  · by_cases h2 : r = 2 <;> simp [h1, h2]

/-- Decoding inverts the base-64 encoding on every byte list. -/
theorem decodeB64_encodeB64 (bytes : List Nat) (hb : ∀ x ∈ bytes, x < 256) :
    decodeB64 (encodeB64 bytes) = bytes := by
  unfold decodeB64 encodeB64
  show sextetsToBytes
    ((((String.mk ((bytesToSextets bytes).map encodeSextet) ++
        b64Padding (bytes.length % 3)).data.filter (fun c => c != '=')).map
          decodeSextet)) = bytes
  rw [String.data_append]
  show sextetsToBytes
    (((((bytesToSextets bytes).map encodeSextet ++
        (b64Padding (bytes.length % 3)).toList).filter (fun c => c != '=')).map
          decodeSextet)) = bytes
  rw [List.filter_append, padding_filtered, List.append_nil,
    decode_sextet_chars (bytesToSextets bytes) (bytesToSextets_lt bytes hb),
    sextetsToBytes_bytesToSextets bytes hb]

/-- Rebuilding a string from its character list is the identity. -/
theorem stringMk_toList (s : String) : String.mk s.toList = s := rfl

/-- A comma-free character list splits into a single group. -/
theorem splitCommas_no_comma (xs : List Char) (h : ',' ∉ xs) :
    splitCommas xs = [xs] := by
  induction xs with
  | nil => rfl
  | cons c rest ih =>
      have hc : ¬ c = ',' := fun he => h (by simp [he])
      simp only [splitCommas, if_neg hc, ih (fun hm => h (by simp [hm]))]

/-- Splitting a list whose first comma separates a comma-free head from
a tail yields the head as the first group. -/
theorem splitCommas_append (xs ys : List Char) (h : ',' ∉ xs) :
    splitCommas (xs ++ ',' :: ys) = xs :: splitCommas ys := by
  induction xs with
  | nil => simp [splitCommas]
  | cons c rest ih =>
      have hc : ¬ c = ',' := fun he => h (by simp [he])
      have ih2 := ih (fun hm => h (by simp [hm]))
      simp only [List.cons_append, splitCommas, if_neg hc]
      rw [show rest.append (',' :: ys) = rest ++ ',' :: ys from rfl, ih2]

/-- The base-64 text of a byte list contains no comma. -/
theorem encodeB64_no_comma (bytes : List Nat) : ',' ∉ (encodeB64 bytes).toList := by
  unfold encodeB64
  show ',' ∉ (String.mk ((bytesToSextets bytes).map encodeSextet) ++
    b64Padding (bytes.length % 3)).data
  rw [String.data_append]
  intro hmem
  rcases List.mem_append.mp hmem with hmem | hmem
  · rcases List.mem_map.mp hmem with ⟨n, _, hn⟩
    exact encodeSextet_ne_comma n hn
  · revert hmem
    unfold b64Padding
    by_cases h1 : bytes.length % 3 = 1
    · simp [h1]
    · by_cases h2 : bytes.length % 3 = 2 <;> simp [h1, h2]

/-- C6: for a media type without commas, the text produced by
`readFileBase64` is exactly the base-64 encoding of the file bytes, and
decoding it reproduces the original bytes exactly (the transport
encoding is a lossless round trip). -/
theorem C6_roundtrip (mime : String) (bytes : List Nat)
    (hm : ',' ∉ mime.toList) (hb : ∀ x ∈ bytes, x < 256) :
    readFileBase64 mime bytes = encodeB64 bytes ∧
    decodeB64 (readFileBase64 mime bytes) = bytes := by
  have hsplit : readFileBase64 mime bytes = encodeB64 bytes := by
    unfold readFileBase64 dataUrl
    have hdata : ("data:" ++ mime ++ ";base64," ++ encodeB64 bytes).toList =
        ("data:".toList ++ mime.toList ++ ";base64".toList) ++
          ',' :: (encodeB64 bytes).toList := by
      show ("data:" ++ mime ++ ";base64," ++ encodeB64 bytes).data = _
      rw [String.data_append, String.data_append, String.data_append]
      have : (";base64,").data = ";base64".toList ++ [','] := by decide
      rw [this]
      simp [List.append_assoc]
    rw [hdata, splitCommas_append _ _ ?hpre,
      splitCommas_no_comma _ (encodeB64_no_comma bytes)]
    · exact stringMk_toList (encodeB64 bytes)
    case hpre =>
      intro hmem
      rcases List.mem_append.mp hmem with hmem | hmem
      · rcases List.mem_append.mp hmem with hmem | hmem
        · revert hmem; decide
        · exact hm hmem
      · revert hmem; decide
  exact ⟨hsplit, by rw [hsplit]; exact decodeB64_encodeB64 bytes hb⟩

/-- Witness for C6 on the bytes of `Hi!` with media type `text/plain`. -/
theorem C6_witness :
    readFileBase64 "text/plain" [72, 105, 33] = encodeB64 [72, 105, 33] ∧
    decodeB64 (readFileBase64 "text/plain" [72, 105, 33]) = [72, 105, 33] :=
  C6_roundtrip "text/plain" [72, 105, 33] (by decide) (by decide)

end DeepRead

example : DeepRead.fileAccepted ⟨"notes.txt", ""⟩ = false := by decide
example : DeepRead.transmittedMime ⟨"a.markdown", ""⟩ = "application/pdf" := by decide
